import Mathlib

/-!
Verification of the `rollbackmap` crate (`src/rollbackmap.rs`): a key-value
map with checkpoint/rollback semantics, represented as a sequence of delta
layers (`VersionState`).

Embedding conventions:
* `BTreeMap<K, V>` is modelled as an association list `List (K × V)` with
  first-match lookup; `BTreeSet<K>` as a duplicate-free `List K`.
* The Rust `Vec<VersionState>` stores layers oldest first, with the current
  layer at the END (`versions.last()`).  The Lean list `versions` stores the
  layers NEWEST FIRST, so the current layer is the head; `iter().rev()`
  in the source corresponds to a plain left-to-right walk here, a Vec push
  is a cons, a Vec pop removes the head, and `versions.remove(0)` removes
  the last element of the Lean list.
* `usize` (`values_count`) arithmetic is modelled as `Nat` modulo `2 ^ 64`
  (release-mode wrapping semantics); `u32` (`checkpoint`) as `Nat` modulo
  `2 ^ 32`.  The source's `values_count -= 1` is `usizeSub1`, which wraps
  on underflow exactly as a release build does.
-/

/-- Modulus of `usize` (64-bit platform). -/
def USIZE : Nat := 2 ^ 64

/-- Modulus of `u32`. -/
def U32 : Nat := 2 ^ 32

/-- Wrapping `usize` increment, the semantics of `values_count += 1`. -/
def usizeAdd1 (c : Nat) : Nat := (c + 1) % USIZE

/-- Wrapping `usize` decrement, the semantics of `values_count -= 1`
(wraps to `2^64 - 1` when `c = 0`, as a release build does; a debug build
panics there). -/
def usizeSub1 (c : Nat) : Nat := (c + (USIZE - 1)) % USIZE

/-- `BTreeMap::get_key_value`: first entry whose key equals `k`. -/
def assocGetKV {K V : Type} [DecidableEq K] (k : K) : List (K × V) → Option (K × V)
  | [] => none
  | (k', v) :: rest => if k' = k then some (k', v) else assocGetKV k rest

/-- `BTreeMap::insert`: update the value in place if the key is present
(keeping the stored key, as `BTreeMap` does), else append the new entry. -/
def assocInsert {K V : Type} [DecidableEq K] (k : K) (v : V) : List (K × V) → List (K × V)
  | [] => [(k, v)]
  | (k', v') :: rest => if k' = k then (k', v) :: rest else (k', v') :: assocInsert k v rest

/-- `BTreeMap::remove`: drop the entries whose key equals `k`. -/
def assocRemove {K V : Type} [DecidableEq K] (k : K) : List (K × V) → List (K × V)
  | [] => []
  | (k', v') :: rest => if k' = k then assocRemove k rest else (k', v') :: assocRemove k rest

/-- `BTreeSet::insert`: add `k` if not already present. -/
def setAdd {K : Type} [DecidableEq K] (k : K) (s : List K) : List K :=
  if k ∈ s then s else k :: s

/-- `BTreeSet::remove`: drop the occurrences of `k`. -/
def setRemove {K : Type} [DecidableEq K] (k : K) : List K → List K
  | [] => []
  | x :: rest => if x = k then setRemove k rest else x :: setRemove k rest

/-- One delta layer (`VersionState` in `src/rollbackmap.rs`). -/
structure VersionState (K V : Type) where
  /-- Keys requested to be removed that are present only in older layers. -/
  removed_keys : List K
  /-- Nodes added in this layer. -/
  data : List (K × V)
  /-- Set to true when `clear` is called. -/
  detached : Bool
  /-- Checkpoint id (`u32` in the source). -/
  checkpoint : Nat
  /-- Count of visible values (`usize` in the source). -/
  values_count : Nat
deriving DecidableEq, Repr

/-- `VersionState::new(checkpoint, values_count)`. -/
def VersionState.new {K V : Type} (checkpoint values_count : Nat) : VersionState K V :=
  { removed_keys := [], data := [], detached := false
    checkpoint := checkpoint, values_count := values_count }

/-- `VersionState::reset(values_count)`. -/
def VersionState.reset {K V : Type} (s : VersionState K V) (values_count : Nat) :
    VersionState K V :=
  { s with removed_keys := [], data := [], detached := false, values_count := values_count }

/-- The rollback map: the source's `Vec` of layers, stored newest first
(the current layer is the head of `versions`). -/
structure RollbackMap (K V : Type) where
  versions : List (VersionState K V)
deriving DecidableEq, Repr

/-- `RollbackMap::new()`: a single base layer with checkpoint id 0, count 0. -/
def RollbackMap.new {K V : Type} : RollbackMap K V :=
  ⟨[VersionState.new 0 0]⟩

/-- `RollbackMap::deep_get_key_value`, scanning layers newest to oldest:
a `data` hit is authoritative, a `removed_keys` hit means absent, a
`detached` layer stops the scan. -/
def deepGetKV {K V : Type} [DecidableEq K] (k : K) :
    List (VersionState K V) → Option (K × V)
  | [] => none
  | ver :: rest =>
    match assocGetKV k ver.data with
    | some kv => some kv
    | none =>
      if k ∈ ver.removed_keys then none
      else if ver.detached then none
      else deepGetKV k rest

/-- Method wrapper for `deep_get_key_value`. -/
def RollbackMap.deep_get_key_value {K V : Type} [DecidableEq K]
    (m : RollbackMap K V) (k : K) : Option (K × V) :=
  deepGetKV k m.versions

/-- `RollbackMap::get`. -/
def RollbackMap.get {K V : Type} [DecidableEq K] (m : RollbackMap K V) (k : K) : Option V :=
  (m.deep_get_key_value k).map Prod.snd

/-- `RollbackMap::contains_key`. -/
def RollbackMap.contains_key {K V : Type} [DecidableEq K] (m : RollbackMap K V) (k : K) : Bool :=
  (m.deep_get_key_value k).isSome

/-- `RollbackMap::insert`: returns `(previous value, new map)`.  The source
first computes the previous value `pv` (skipping the lookup when the key is
tombstoned in the current layer), then clears the tombstone, writes the
entry into the current layer's `data`, and increments `values_count` iff
`pv` is `none`. -/
def RollbackMap.insert {K V : Type} [DecidableEq K] (m : RollbackMap K V) (k : K) (v : V) :
    Option V × RollbackMap K V :=
  let pv : Option V :=
    match m.versions with
    | [] => none
    | last :: _ =>
      if k ∈ last.removed_keys then none
      else (deepGetKV k m.versions).map Prod.snd
  match m.versions with
  | [] => (pv, m)
  | last :: rest =>
    (pv,
     ⟨{ last with
        removed_keys := setRemove k last.removed_keys
        data := assocInsert k v last.data
        values_count :=
          if pv.isNone then usizeAdd1 last.values_count else last.values_count } :: rest⟩)

/-- `RollbackMap::remove`: if the key is in the current layer's `data`,
decrement the count and delete it there (note: no tombstone is written);
else resolve it across the layers and, if found, decrement the count and
record a tombstone with the found (stored) key; else no-op. -/
def RollbackMap.remove {K V : Type} [DecidableEq K] (m : RollbackMap K V) (k : K) :
    Option V × RollbackMap K V :=
  match m.versions with
  | [] => (none, m)
  | last :: rest =>
    if (assocGetKV k last.data).isSome then
      ((assocGetKV k last.data).map Prod.snd,
       ⟨{ last with
          values_count := usizeSub1 last.values_count
          data := assocRemove k last.data } :: rest⟩)
    else
      match deepGetKV k (last :: rest) with
      | some (k0, v0) =>
        (some v0,
         ⟨{ last with
            values_count := usizeSub1 last.values_count
            removed_keys := setAdd k0 last.removed_keys } :: rest⟩)
      | none => (none, m)

/-- `RollbackMap::clear`: wipe the current layer and set its detach barrier. -/
def RollbackMap.clear {K V : Type} (m : RollbackMap K V) : RollbackMap K V :=
  match m.versions with
  | [] => m
  | last :: rest =>
    ⟨{ last with removed_keys := [], data := [], detached := true, values_count := 0 } :: rest⟩

/-- `RollbackMap::len`: the current layer's cached `values_count`. -/
def RollbackMap.len {K V : Type} (m : RollbackMap K V) : Nat :=
  match m.versions with
  | [] => 0
  | last :: _ => last.values_count

/-- `RollbackMap::is_empty`. -/
def RollbackMap.is_empty {K V : Type} (m : RollbackMap K V) : Bool :=
  m.len = 0

/-- `RollbackMap::checkpoint`: push a fresh layer with id `(last.checkpoint
+ 1) % 2^32` (a `u32` increment) inheriting the count, and return the
PREVIOUS current layer's id. -/
def RollbackMap.checkpoint {K V : Type} (m : RollbackMap K V) :
    Option Nat × RollbackMap K V :=
  match m.versions with
  | [] => (none, m)
  | last :: _ =>
    (some last.checkpoint,
     ⟨VersionState.new ((last.checkpoint + 1) % U32) last.values_count :: m.versions⟩)

/-- `RollbackMap::get_last_checkpoint`: the id of the second-newest layer
(`versions[len - 2]` of the oldest-first Vec), absent with fewer than two
layers. -/
def RollbackMap.get_last_checkpoint {K V : Type} (m : RollbackMap K V) : Option Nat :=
  match m.versions with
  | _ :: prev :: _ => some prev.checkpoint
  | _ => none

/-- `RollbackMap::get_prev_checkpoint`: the id of the third-newest layer,
absent with fewer than three layers. -/
def RollbackMap.get_prev_checkpoint {K V : Type} (m : RollbackMap K V) : Option Nat :=
  match m.versions with
  | _ :: _ :: prev :: _ => some prev.checkpoint
  | _ => none

/-- `RollbackMap::get_checkpoints_count`. -/
def RollbackMap.get_checkpoints_count {K V : Type} (m : RollbackMap K V) : Nat :=
  if m.versions.length < 2 then 0 else m.versions.length - 1

/-- The scan in `RollbackMap::rollback` that looks (newest to oldest) for a
layer with the requested id and captures its `values_count`. -/
def findCheckpoint {K V : Type} (c : Nat) : List (VersionState K V) → Option Nat
  | [] => none
  | ver :: rest => if ver.checkpoint = c then some ver.values_count else findCheckpoint c rest

/-- The pop loop in `RollbackMap::rollback`: while at least two layers
remain, if the second-newest layer's id (`get_last_checkpoint`) equals the
target, reset the current layer in place with the captured count and stop
with success; otherwise pop the current layer. -/
def rollbackLoop {K V : Type} (c cnt : Nat) :
    List (VersionState K V) → Bool × List (VersionState K V)
  | last :: prev :: rest =>
    if prev.checkpoint = c then (true, last.reset cnt :: prev :: rest)
    else rollbackLoop c cnt (prev :: rest)
  | vs => (false, vs)

/-- `RollbackMap::rollback`: fail (with no further action) when no layer
carries the requested id, else run the pop loop. -/
def RollbackMap.rollback {K V : Type} (m : RollbackMap K V) (c : Nat) :
    Bool × RollbackMap K V :=
  match findCheckpoint c m.versions with
  | none => (false, m)
  | some cnt =>
    match rollbackLoop c cnt m.versions with
    | (b, vs) => (b, ⟨vs⟩)

/-- The loop in `RollbackMap::prune`, with an explicit fuel bound (each
iteration shortens the list by one, so `vs.length` rounds of fuel suffice):
while more than two layers exist, remove the oldest (`versions.remove(0)`
in the oldest-first Vec, i.e. the last element here). -/
def pruneLoopAux {K V : Type} : Nat → List (VersionState K V) → List (VersionState K V)
  | 0, vs => vs
  | fuel + 1, vs => if vs.length > 2 then pruneLoopAux fuel vs.dropLast else vs

/-- The `while` loop of `RollbackMap::prune`. -/
def pruneLoop {K V : Type} (vs : List (VersionState K V)) : List (VersionState K V) :=
  pruneLoopAux vs.length vs

/-- `RollbackMap::prune`: drop all layers but the two newest, then return
`get_last_checkpoint`. -/
def RollbackMap.prune {K V : Type} (m : RollbackMap K V) :
    Option Nat × RollbackMap K V :=
  let vs := pruneLoop m.versions
  (RollbackMap.get_last_checkpoint ⟨vs⟩, (⟨vs⟩ : RollbackMap K V))

/-- An insert or remove call, for stating round-trip properties over
arbitrary mutation sequences. -/
inductive MapOp (K V : Type) where
  | ins (k : K) (v : V)
  | rem (k : K)
deriving DecidableEq, Repr

/-- Run one operation (dropping the returned value). -/
def applyOp {K V : Type} [DecidableEq K] (m : RollbackMap K V) : MapOp K V → RollbackMap K V
  | .ins k v => (m.insert k v).2
  | .rem k => (m.remove k).2

/-- Run a sequence of insert/remove operations. -/
def applyOps {K V : Type} [DecidableEq K] (m : RollbackMap K V) (ops : List (MapOp K V)) :
    RollbackMap K V :=
  ops.foldl applyOp m

/-- Run a sequence of inserts given as key-value pairs. -/
def insertAll {K V : Type} [DecidableEq K] (m : RollbackMap K V) (ps : List (K × V)) :
    RollbackMap K V :=
  ps.foldl (fun m' p => (m'.insert p.1 p.2).2) m

/-- Concrete trace `new(); insert(1,"a"); checkpoint(); insert(1,"b")`:
key 1 sits in the current layer's `data` (value "b") and is also present in
the older base layer (value "a"). -/
def shadowTrace : RollbackMap Nat String :=
  ((((RollbackMap.new : RollbackMap Nat String).insert 1 "a").2.checkpoint).2.insert 1 "b").2

/-- Concrete trace `new(); insert(1,"a"); checkpoint(); checkpoint()`: the
only copy of key 1 lives in the oldest of three layers. -/
def pruneTrace : RollbackMap Nat String :=
  ((((RollbackMap.new : RollbackMap Nat String).insert 1 "a").2.checkpoint).2.checkpoint).2

/-- Concrete trace `new(); checkpoint()`: two layers with ids 1 (current)
and 0 (base); the only checkpoint id ever returned so far is 0. -/
def freshCheckpointTrace : RollbackMap Nat String :=
  ((RollbackMap.new : RollbackMap Nat String).checkpoint).2

/-- A map whose single layer carries the largest `u32` checkpoint id
(reachable by 2^32 `checkpoint(); prune()` rounds, which keep the layer
count bounded while the id keeps increasing). -/
def maxIdState : RollbackMap Nat String :=
  ⟨[VersionState.new (2 ^ 32 - 1) 0]⟩

/-- C1: the count invariant fails on the code.  After
`new(); insert(1,"a"); checkpoint(); insert(1,"b"); remove(1)` the map
reports `len() = 0`, yet `get(1)` still returns `some "a"` (one visible
key): `remove` deleted key 1 from the current layer's `data` without
writing a tombstone, so the base layer's entry became visible again while
the count was decremented. -/
theorem len_ne_visible_after_shadowed_remove :
    (shadowTrace.remove 1).2.len = 0 ∧
    (shadowTrace.remove 1).2.get 1 = some "a" := by decide

/-- C2: `prune()` does not preserve the observable state.  After
`new(); insert(1,"a"); checkpoint(); checkpoint()` the map has `get(1) =
some "a"` and `len() = 1`; `prune()` removes the oldest layer wholesale
(instead of collapsing it into its successor), after which `get(1) = none`
while `len()` still reports 1. -/
theorem prune_drops_visible_value :
    pruneTrace.get 1 = some "a" ∧ pruneTrace.len = 1 ∧
    (pruneTrace.prune).2.get 1 = none ∧ (pruneTrace.prune).2.len = 1 := by decide

/-- C4: a failing `rollback` is not side-effect free.  On
`new(); checkpoint()` (layers with ids 1 and 0), `rollback(1)` — the
current layer's own id, never returned by `checkpoint()` — returns `false`
but pops the current layer on the way: `get_checkpoints_count()` drops from
1 to 0 and `get_last_checkpoint()` from `some 0` to `none`. -/
theorem rollback_false_mutates_state :
    (freshCheckpointTrace.rollback 1).1 = false ∧
    freshCheckpointTrace.get_checkpoints_count = 1 ∧
    (freshCheckpointTrace.rollback 1).2.get_checkpoints_count = 0 ∧
    freshCheckpointTrace.get_last_checkpoint = some 0 ∧
    (freshCheckpointTrace.rollback 1).2.get_last_checkpoint = none := by decide

/-- C5: the remove postcondition fails when the key is present both in the
current layer's `data` and in an older layer.  On
`new(); insert(1,"a"); checkpoint(); insert(1,"b")`, `remove(1)` returns
`some "b"`, yet afterwards `get(1) = some "a"` and `contains_key(1)` is
still true, because no tombstone is written in the current-layer branch
of `remove`. -/
theorem remove_leaves_key_visible :
    (shadowTrace.remove 1).1 = some "b" ∧
    (shadowTrace.remove 1).2.get 1 = some "a" ∧
    (shadowTrace.remove 1).2.contains_key 1 = true := by decide

/-- C6: the `values_count -= 1` in `remove` underflows.  Continuing the C5
trace with a second `remove(1)`: the key is resolved in the base layer, so
the code decrements the current layer's count, which is already 0 — a
panic in a debug build, and a wrap to `2^64 - 1` (reported by `len()`) in
a release build, as modelled here. -/
theorem remove_values_count_underflow :
    ((shadowTrace.remove 1).2.remove 1).1 = some "a" ∧
    ((shadowTrace.remove 1).2.remove 1).2.len = 2 ^ 64 - 1 := by decide

/-- C8 counterexample: at the (reachable) state whose current layer id is
`u32::MAX = 2^32 - 1`, `checkpoint()` appends a layer with id 0 — the u32
increment wraps — so the new layer's id is not the previous id plus one. -/
theorem checkpoint_id_wraps_at_u32_max :
    (maxIdState.checkpoint).1 = some (2 ^ 32 - 1) ∧
    (maxIdState.checkpoint).2.versions.map VersionState.checkpoint = [0, 2 ^ 32 - 1] ∧
    (0 : Nat) ≠ (2 ^ 32 - 1) + 1 := by decide

/-- A u32 increment (mod `2^32`) never returns its argument, so a freshly
pushed layer's id differs from its predecessor's. -/
theorem succ_mod_u32_ne (c : Nat) : (c + 1) % U32 ≠ c := by
  have hU : (1 : Nat) < U32 := by norm_num [U32]
  intro h
  rcases Nat.lt_or_ge (c + 1) U32 with h2 | h2
  · rw [Nat.mod_eq_of_lt h2] at h; omega
  · have hlt : (c + 1) % U32 < U32 := Nat.mod_lt _ (by omega)
    have hc1 : c + 1 = U32 := by omega
    rw [hc1, Nat.mod_self] at h
    omega

/-- `insert` rewrites only the current (head) layer and keeps its
checkpoint id. -/
theorem insert_shape {K V : Type} [DecidableEq K] (x : VersionState K V)
    (tail : List (VersionState K V)) (k : K) (v : V) :
    ∃ x', ((RollbackMap.mk (x :: tail)).insert k v).2 = RollbackMap.mk (x' :: tail)
      ∧ x'.checkpoint = x.checkpoint :=
  ⟨_, rfl, rfl⟩

/-- `remove` rewrites only the current (head) layer and keeps its
checkpoint id. -/
theorem remove_shape {K V : Type} [DecidableEq K] (x : VersionState K V)
    (tail : List (VersionState K V)) (k : K) :
    ∃ x', ((RollbackMap.mk (x :: tail)).remove k).2 = RollbackMap.mk (x' :: tail)
      ∧ x'.checkpoint = x.checkpoint := by
  by_cases h : (assocGetKV k x.data).isSome
  · refine ⟨{ x with values_count := usizeSub1 x.values_count, data := assocRemove k x.data }, ?_, rfl⟩
    simp [RollbackMap.remove, h]
  · cases hd : deepGetKV k (x :: tail) with
    | none => exact ⟨x, by simp [RollbackMap.remove, h, hd], rfl⟩
    | some kv =>
      obtain ⟨k0, v0⟩ := kv
      refine ⟨{ x with values_count := usizeSub1 x.values_count, removed_keys := setAdd k0 x.removed_keys }, ?_, rfl⟩
      simp [RollbackMap.remove, h, hd]

/-- A sequence of inserts and removes rewrites only the current (head)
layer and keeps its checkpoint id. -/
theorem applyOps_shape {K V : Type} [DecidableEq K] (ops : List (MapOp K V)) :
    ∀ (x : VersionState K V) (tail : List (VersionState K V)),
    ∃ x', applyOps (RollbackMap.mk (x :: tail)) ops = RollbackMap.mk (x' :: tail)
      ∧ x'.checkpoint = x.checkpoint := by
  induction ops with
  | nil => exact fun x tail => ⟨x, rfl, rfl⟩
  | cons op rest ih =>
    intro x tail
    have h1 : ∃ x1, applyOp (RollbackMap.mk (x :: tail)) op = RollbackMap.mk (x1 :: tail)
        ∧ x1.checkpoint = x.checkpoint := by
      cases op with
      | ins k v => simpa [applyOp] using insert_shape x tail k v
      | rem k => simpa [applyOp] using remove_shape x tail k
    obtain ⟨x1, hx1, hc1⟩ := h1
    obtain ⟨x2, hx2, hc2⟩ := ih x1 tail
    refine ⟨x2, ?_, by rw [hc2, hc1]⟩
    simp only [applyOps, List.foldl_cons]
    rw [hx1]
    exact hx2

/-- A sequence of inserts rewrites only the current (head) layer and keeps
its checkpoint id. -/
theorem insertAll_shape {K V : Type} [DecidableEq K] (ps : List (K × V)) :
    ∀ (x : VersionState K V) (tail : List (VersionState K V)),
    ∃ x', insertAll (RollbackMap.mk (x :: tail)) ps = RollbackMap.mk (x' :: tail)
      ∧ x'.checkpoint = x.checkpoint := by
  induction ps with
  | nil => exact fun x tail => ⟨x, rfl, rfl⟩
  | cons p rest ih =>
    intro x tail
    obtain ⟨x1, hx1, hc1⟩ := insert_shape x tail p.1 p.2
    obtain ⟨x2, hx2, hc2⟩ := ih x1 tail
    refine ⟨x2, ?_, by rw [hc2, hc1]⟩
    simp only [insertAll, List.foldl_cons]
    rw [hx1]
    exact hx2

/-- Looking up `k` right after `assocInsert k v` yields the value `v`. -/
theorem assocGetKV_assocInsert {K V : Type} [DecidableEq K] (k : K) (v : V)
    (d : List (K × V)) :
    ∃ k0, assocGetKV k (assocInsert k v d) = some (k0, v) := by
  induction d with
  | nil => exact ⟨k, by simp [assocInsert, assocGetKV]⟩
  | cons p rest ih =>
    obtain ⟨k', v'⟩ := p
    by_cases h : k' = k
    · exact ⟨k', by simp [assocInsert, assocGetKV, h]⟩
    · obtain ⟨k0, h0⟩ := ih
      exact ⟨k0, by simp [assocInsert, assocGetKV, h, h0]⟩

/-- C8 (amended): for every map state with a non-empty layer sequence,
`checkpoint()` returns the previous last layer's id (never absent
post-construction, and never the new layer's id) and appends a fresh empty
layer whose id is `(previous id + 1) % 2^32` — equal to the previous id
plus one except at the u32 wrap — and whose count is inherited from the
previous last layer. -/
theorem checkpoint_spec {K V : Type} (m : RollbackMap K V)
    (last : VersionState K V) (rest : List (VersionState K V))
    (hv : m.versions = last :: rest) :
    (m.checkpoint).1 = some last.checkpoint ∧
    (m.checkpoint).2.versions
      = VersionState.new ((last.checkpoint + 1) % U32) last.values_count :: last :: rest ∧
    (last.checkpoint + 1) % U32 ≠ last.checkpoint := by
  obtain ⟨vs⟩ := m
  simp only at hv
  subst hv
  exact ⟨rfl, rfl, succ_mod_u32_ne _⟩

/-- Witness for `checkpoint_spec` at the freshly constructed map. -/
theorem checkpoint_spec_witness :
    (RollbackMap.new : RollbackMap Nat String).versions
      = (VersionState.new 0 0 : VersionState Nat String) :: [] ∧
    ((RollbackMap.new : RollbackMap Nat String).checkpoint).1
      = some (VersionState.new 0 0 : VersionState Nat String).checkpoint :=
  ⟨rfl, (checkpoint_spec RollbackMap.new (VersionState.new 0 0) [] rfl).1⟩

/-- C10: whenever `get_last_checkpoint()` returns `some c`, `rollback c`
succeeds (returns true); and immediately after a `checkpoint()` call that
returned `some c`, `get_last_checkpoint()` returns that same `c`. -/
theorem last_checkpoint_rollback_succeeds {K V : Type} [DecidableEq K]
    (m m' : RollbackMap K V) (c c' : Nat)
    (h : m.get_last_checkpoint = some c)
    (h' : (m'.checkpoint).1 = some c') :
    (m.rollback c).1 = true ∧ (m'.checkpoint).2.get_last_checkpoint = some c' := by
  constructor
  · obtain ⟨vs⟩ := m
    cases vs with
    | nil => simp [RollbackMap.get_last_checkpoint] at h
    | cons v0 t =>
      cases t with
      | nil => simp [RollbackMap.get_last_checkpoint] at h
      | cons v1 rest =>
        have hc : v1.checkpoint = c := by
          simpa [RollbackMap.get_last_checkpoint] using h
        by_cases h0 : v0.checkpoint = c
        · simp [RollbackMap.rollback, findCheckpoint, h0, rollbackLoop, hc]
        · simp [RollbackMap.rollback, findCheckpoint, h0, hc, rollbackLoop]
  · obtain ⟨vs'⟩ := m'
    cases vs' with
    | nil => simp [RollbackMap.checkpoint] at h'
    | cons last rest =>
      have hc' : last.checkpoint = c' := by
        simpa [RollbackMap.checkpoint] using h'
      simp [RollbackMap.checkpoint, RollbackMap.get_last_checkpoint, hc']

/-- Witness for `last_checkpoint_rollback_succeeds` on `new(); checkpoint()`. -/
theorem last_checkpoint_rollback_succeeds_witness :
    freshCheckpointTrace.get_last_checkpoint = some 0 ∧
    ((RollbackMap.new : RollbackMap Nat String).checkpoint).1 = some 0 ∧
    (freshCheckpointTrace.rollback 0).1 = true ∧
    ((RollbackMap.new : RollbackMap Nat String).checkpoint).2.get_last_checkpoint = some 0 :=
  ⟨by decide, by decide,
   (last_checkpoint_rollback_succeeds freshCheckpointTrace RollbackMap.new 0 0
     (by decide) (by decide)).1,
   (last_checkpoint_rollback_succeeds freshCheckpointTrace RollbackMap.new 0 0
     (by decide) (by decide)).2⟩

/-- C3: round-trip.  For every map state (post-construction, i.e. with a
non-empty layer sequence, which is what makes `checkpoint()` return an id
`c`), after any further sequence of inserts and removes, `rollback c`
returns true and restores `get` for every key and `len()` to exactly their
values at the moment `checkpoint()` was called. -/
theorem rollback_roundtrip {K V : Type} [DecidableEq K]
    (m : RollbackMap K V) (ops : List (MapOp K V)) (c : Nat)
    (h : (m.checkpoint).1 = some c) :
    ((applyOps (m.checkpoint).2 ops).rollback c).1 = true ∧
    (∀ k, ((applyOps (m.checkpoint).2 ops).rollback c).2.get k = m.get k) ∧
    ((applyOps (m.checkpoint).2 ops).rollback c).2.len = m.len := by
  obtain ⟨vs⟩ := m
  cases vs with
  | nil => simp [RollbackMap.checkpoint] at h
  | cons last rest =>
    have hc : last.checkpoint = c := by
      simpa [RollbackMap.checkpoint] using h
    have hck : ((RollbackMap.mk (last :: rest)).checkpoint).2
        = RollbackMap.mk
            (VersionState.new ((last.checkpoint + 1) % U32) last.values_count
              :: last :: rest) := rfl
    rw [hck]
    obtain ⟨x', hx', hcx⟩ :=
      applyOps_shape ops
        (VersionState.new ((last.checkpoint + 1) % U32) last.values_count) (last :: rest)
    rw [hx']
    have hne : x'.checkpoint ≠ c := by
      rw [hcx]
      simp only [VersionState.new, hc]
      exact succ_mod_u32_ne c
    have hfind : findCheckpoint c (x' :: last :: rest) = some last.values_count := by
      simp [findCheckpoint, hne, hc]
    have hloop : rollbackLoop c last.values_count (x' :: last :: rest)
        = (true, x'.reset last.values_count :: last :: rest) := by
      simp [rollbackLoop, hc]
    have hrb : (RollbackMap.mk (x' :: last :: rest)).rollback c
        = (true, RollbackMap.mk (x'.reset last.values_count :: last :: rest)) := by
      simp [RollbackMap.rollback, hfind, hloop]
    rw [hrb]
    refine ⟨rfl, ?_, ?_⟩
    · intro k
      simp [RollbackMap.get, RollbackMap.deep_get_key_value, deepGetKV,
        VersionState.reset, assocGetKV]
    · simp [RollbackMap.len, VersionState.reset]

/-- Witness for `rollback_roundtrip`: checkpoint the fresh map, insert and
remove a key, roll back. -/
theorem rollback_roundtrip_witness :
    ((RollbackMap.new : RollbackMap Nat String).checkpoint).1 = some 0 ∧
    ((applyOps ((RollbackMap.new : RollbackMap Nat String).checkpoint).2
        [MapOp.ins 2 "y", MapOp.rem 2]).rollback 0).1 = true :=
  ⟨by decide,
   (rollback_roundtrip RollbackMap.new [MapOp.ins 2 "y", MapOp.rem 2] 0 (by decide)).1⟩

/-- C7: insert contract.  For every map state with a non-empty layer
sequence whose current layer satisfies the documented structural invariants
(a key is never in both `data` and `removed_keys` of one layer, and the
cached count is below `usize::MAX`), `insert k v` returns exactly what
`get k` returned before the call (also when `k` carries a same-layer
tombstone), afterwards `get k` returns `v`, and `len()` grows by one
exactly when no previous value was visible. -/
theorem insert_contract {K V : Type} [DecidableEq K]
    (m : RollbackMap K V) (k : K) (v : V)
    (last : VersionState K V) (rest : List (VersionState K V))
    (hv : m.versions = last :: rest)
    (hdisj : k ∈ last.removed_keys → assocGetKV k last.data = none)
    (hcnt : last.values_count + 1 < USIZE) :
    (m.insert k v).1 = m.get k ∧
    (m.insert k v).2.get k = some v ∧
    (m.insert k v).2.len = (if (m.get k).isNone then m.len + 1 else m.len) := by
  obtain ⟨vs⟩ := m
  simp only at hv
  subst hv
  obtain ⟨k0, hk0⟩ := assocGetKV_assocInsert k v last.data
  have hadd : usizeAdd1 last.values_count = last.values_count + 1 := by
    simp [usizeAdd1, Nat.mod_eq_of_lt hcnt]
  by_cases hmem : k ∈ last.removed_keys
  · have hget : (RollbackMap.mk (last :: rest)).get k = none := by
      simp [RollbackMap.get, RollbackMap.deep_get_key_value, deepGetKV, hdisj hmem, hmem]
    refine ⟨?_, ?_, ?_⟩
    · simp [RollbackMap.insert, hmem, hget]
    · simp [RollbackMap.insert, RollbackMap.get, RollbackMap.deep_get_key_value,
        deepGetKV, hmem, hk0]
    · simp [RollbackMap.insert, RollbackMap.len, hmem, hget, hadd]
  · have hget : (RollbackMap.mk (last :: rest)).get k
        = (deepGetKV k (last :: rest)).map Prod.snd := rfl
    refine ⟨?_, ?_, ?_⟩
    · simp [RollbackMap.insert, hmem, hget]
    · simp [RollbackMap.insert, RollbackMap.get, RollbackMap.deep_get_key_value,
        deepGetKV, hmem, hk0]
    · cases hd : deepGetKV k (last :: rest) with
      | none => simp [RollbackMap.insert, RollbackMap.len, hmem, hget, hd, hadd]
      | some kv => simp [RollbackMap.insert, RollbackMap.len, hmem, hget, hd]

/-- Witness for `insert_contract` on the freshly constructed map. -/
theorem insert_contract_witness :
    (RollbackMap.new : RollbackMap Nat String).versions
      = (VersionState.new 0 0 : VersionState Nat String) :: [] ∧
    ((5 : Nat) ∈ (VersionState.new 0 0 : VersionState Nat String).removed_keys →
      assocGetKV 5 (VersionState.new 0 0 : VersionState Nat String).data = none) ∧
    (VersionState.new 0 0 : VersionState Nat String).values_count + 1 < USIZE ∧
    ((RollbackMap.new : RollbackMap Nat String).insert 5 "x").2.get 5 = some "x" :=
  ⟨rfl, by simp [VersionState.new], by norm_num [VersionState.new, USIZE],
   (insert_contract RollbackMap.new 5 "x" (VersionState.new 0 0) [] rfl
     (by simp [VersionState.new]) (by norm_num [VersionState.new, USIZE])).2.1⟩

/-- Rolling back to the id of a fully cleared layer (empty `data` and
`removed_keys`, `detached`, count 0), after a checkpoint on it and any
further inserts, succeeds and yields an empty map: the cleared layer's
detach barrier hides every older layer. -/
theorem cleared_layer_rollback {K V : Type} [DecidableEq K]
    (CL : VersionState K V) (rest : List (VersionState K V)) (ps : List (K × V))
    (hdata : CL.data = []) (hrem : CL.removed_keys = []) (hdet : CL.detached = true)
    (hzero : CL.values_count = 0) :
    ((insertAll ((RollbackMap.mk (CL :: rest)).checkpoint).2 ps).rollback CL.checkpoint).1
      = true ∧
    (∀ k, ((insertAll ((RollbackMap.mk (CL :: rest)).checkpoint).2 ps).rollback
      CL.checkpoint).2.get k = none) ∧
    ((insertAll ((RollbackMap.mk (CL :: rest)).checkpoint).2 ps).rollback
      CL.checkpoint).2.len = 0 := by
  have hck : ((RollbackMap.mk (CL :: rest)).checkpoint).2
      = RollbackMap.mk
          (VersionState.new ((CL.checkpoint + 1) % U32) CL.values_count :: CL :: rest) := rfl
  rw [hck]
  obtain ⟨x', hx', hcx⟩ :=
    insertAll_shape ps (VersionState.new ((CL.checkpoint + 1) % U32) CL.values_count)
      (CL :: rest)
  rw [hx']
  have hne : x'.checkpoint ≠ CL.checkpoint := by
    rw [hcx]
    simp only [VersionState.new]
    exact succ_mod_u32_ne _
  have hfind : findCheckpoint CL.checkpoint (x' :: CL :: rest) = some CL.values_count := by
    simp [findCheckpoint, hne]
  have hloop : rollbackLoop CL.checkpoint CL.values_count (x' :: CL :: rest)
      = (true, x'.reset CL.values_count :: CL :: rest) := by
    simp [rollbackLoop]
  have hrb : (RollbackMap.mk (x' :: CL :: rest)).rollback CL.checkpoint
      = (true, RollbackMap.mk (x'.reset CL.values_count :: CL :: rest)) := by
    simp [RollbackMap.rollback, hfind, hloop]
  rw [hrb]
  refine ⟨rfl, ?_, ?_⟩
  · intro k
    simp [RollbackMap.get, RollbackMap.deep_get_key_value, deepGetKV,
      VersionState.reset, assocGetKV, hdata, hrem, hdet]
  · simp [RollbackMap.len, VersionState.reset, hzero]

/-- C9: clear is a hard wall.  For every map state on which
`clear(); checkpoint()` returns id `c` (i.e. the layer sequence is
non-empty), every `get` is absent and `len()` is 0 right after `clear()`,
and after any further inserts followed by `rollback c` the map is again
empty — every `get` absent and `len() = 0` — rather than showing the
pre-clear data. -/
theorem clear_hard_wall {K V : Type} [DecidableEq K]
    (m : RollbackMap K V) (ps : List (K × V)) (c : Nat)
    (hc : ((m.clear).checkpoint).1 = some c) :
    (∀ k, (m.clear).get k = none) ∧ (m.clear).len = 0 ∧
    ((insertAll ((m.clear).checkpoint).2 ps).rollback c).1 = true ∧
    (∀ k, ((insertAll ((m.clear).checkpoint).2 ps).rollback c).2.get k = none) ∧
    ((insertAll ((m.clear).checkpoint).2 ps).rollback c).2.len = 0 := by
  obtain ⟨vs⟩ := m
  cases vs with
  | nil => simp [RollbackMap.clear, RollbackMap.checkpoint] at hc
  | cons last rest =>
    have hcl : (RollbackMap.mk (last :: rest)).clear
        = RollbackMap.mk ({ last with removed_keys := [], data := [], detached := true, values_count := 0 } :: rest) := rfl
    rw [hcl] at hc ⊢
    have hproj : ({ last with removed_keys := [], data := [], detached := true, values_count := 0 } : VersionState K V).checkpoint = last.checkpoint := rfl
    have hcc : last.checkpoint = c := by
      simpa [RollbackMap.checkpoint] using hc
    subst hcc
    obtain ⟨h1, h2, h3⟩ :=
      cleared_layer_rollback
        ({ last with removed_keys := [], data := [], detached := true, values_count := 0 })
        rest ps rfl rfl rfl rfl
    rw [hproj] at h1 h2 h3
    refine ⟨?_, ?_, h1, h2, h3⟩
    · intro k
      simp [RollbackMap.get, RollbackMap.deep_get_key_value, deepGetKV, assocGetKV]
    · simp [RollbackMap.len]

/-- Witness for `clear_hard_wall`: clear the fresh map, checkpoint, insert,
roll back; the map is empty. -/
theorem clear_hard_wall_witness :
    (((RollbackMap.new : RollbackMap Nat String).clear).checkpoint).1 = some 0 ∧
    ((insertAll (((RollbackMap.new : RollbackMap Nat String).clear).checkpoint).2
        [(7, "z")]).rollback 0).2.len = 0 :=
  ⟨by decide, (clear_hard_wall RollbackMap.new [(7, "z")] 0 (by decide)).2.2.2.2⟩
